import Mathlib

/-!
Verification of the AgroStock Lite inventory manager.

The development shallowly embeds the Python sources:
  * `src/estoque.py`    — the inventory manager (`Estoque`);
  * `src/storage.py`    — the JSON-file record store (`Storage.salvar_insumos`);
  * `src/oracle_gateway.py` — the remote relational gateway (`OracleGateway`).

Supply records (`insumos`) are Python dictionaries with keys
`codigo, nome, quantidade, unidade, preco_unit, nivel_min`; quantities and
prices are Python floats, modelled here by rationals.  The working set is
the ordered list `Estoque.insumos`; the two backing stores are modelled as
explicit state threaded through the operations, with the environment
(`Env`) recording which remote calls would succeed.
-/

namespace AgroStock

/-- A supply record (`insumo` dictionary of the Python code). -/
structure Insumo where
  codigo : Int
  nome : String
  quantidade : ℚ
  preco_unit : ℚ
  nivel_min : ℚ
  unidade : String
deriving DecidableEq

/-- A possibly-incomplete field set passed to `Estoque.atualizar_insumo`
(`novos_dados` dictionary: any subset of the record's keys may be present,
the Python merge `\x7b**insumo, **novos_dados\x7d` overwrites exactly the
present keys). -/
structure NovosDados where
  codigo : Option Int := none
  nome : Option String := none
  quantidade : Option ℚ := none
  preco_unit : Option ℚ := none
  nivel_min : Option ℚ := none
  unidade : Option String := none
deriving DecidableEq

/-- The merge `\x7b**insumo, **novos_dados\x7d` of `Estoque.atualizar_insumo`
(src/estoque.py line 72): keys present in `novos_dados` overwrite, the
rest keep the record's value. -/
def mesclar (i : Insumo) (nd : NovosDados) : Insumo where
  codigo := nd.codigo.getD i.codigo
  nome := nd.nome.getD i.nome
  quantidade := nd.quantidade.getD i.quantidade
  preco_unit := nd.preco_unit.getD i.preco_unit
  nivel_min := nd.nivel_min.getD i.nivel_min
  unidade := nd.unidade.getD i.unidade

/-- Outcome of an `Estoque` operation.  The Python methods return a bool
and print a message; the message distinguishes the failure reasons, which
we record in the result. -/
inductive Resultado where
  | sucesso
  | codigoDuplicado
  | naoEncontrado
  | quantidadeInvalida
  | estoqueInsuficiente
deriving DecidableEq

/-- Environment of one synchronization pass: whether `conectar()` succeeds
and, per record code, whether the remote INSERT / UPDATE statements
succeed (`executar_dml` returns `False` on any database error). -/
structure OracleEnv where
  up : Bool
  insertOk : Int → Bool
  updateOk : Int → Bool

/-- Environment of one mutation: the remote gateway environment plus
whether `Storage.salvar_insumos` (the local JSON write) succeeds. -/
structure Env where
  oracle : OracleEnv
  saveOk : Bool

/-- Observable contents of the two stores: the rows of the remote
`INSUMOS` table and the record list held by the local JSON file. -/
structure Stores where
  oracleDb : List Insumo
  localDb : List Insumo
deriving DecidableEq

namespace OracleGateway

/-- `OracleGateway.buscar_insumo`: `SELECT ... WHERE CODIGO = :codigo`,
returning the first matching row or `None` (src/oracle_gateway.py
lines 213-232). -/
def buscar_insumo : List Insumo → Int → Option Insumo
  | [], _ => none
  | r :: rest, c => if r.codigo = c then some r else buscar_insumo rest c

/-- `OracleGateway.inserir_insumo`: INSERT of the full record
(src/oracle_gateway.py lines 234-259); on DML failure the table is
unchanged. -/
def inserir_insumo (e : OracleEnv) (db : List Insumo) (i : Insumo) : List Insumo :=
  if e.insertOk i.codigo then db ++ [i] else db

/-- The effect of `OracleGateway.atualizar_insumo`'s UPDATE on one row
with the matching code: the five permitted columns (NOME, QUANTIDADE,
UNIDADE, PRECO_UNIT, NIVEL_MIN) are set from the supplied record, the key
column CODIGO is untouched (src/oracle_gateway.py lines 277-283). -/
def atualizarLinha (i r : Insumo) : Insumo where
  codigo := r.codigo
  nome := i.nome
  quantidade := i.quantidade
  preco_unit := i.preco_unit
  nivel_min := i.nivel_min
  unidade := i.unidade

/-- `OracleGateway.atualizar_insumo` as invoked from `Estoque._sincronizar`
(full record supplied, so all five permitted fields are in the change
set): `UPDATE INSUMOS SET ... WHERE CODIGO = :codigo`
(src/oracle_gateway.py lines 261-303); on DML failure the table is
unchanged. -/
def atualizar_insumo (e : OracleEnv) (db : List Insumo) (c : Int) (i : Insumo) : List Insumo :=
  if e.updateOk c then db.map (fun r => if r.codigo = c then atualizarLinha i r else r) else db

end OracleGateway

namespace Estoque

/-- `Estoque.buscar_insumo`: first record of the working set with the
given code (src/estoque.py lines 44-51). -/
def buscar_insumo : List Insumo → Int → Option Insumo
  | [], _ => none
  | i :: rest, c => if i.codigo = c then some i else buscar_insumo rest c

/-- The remote half of `Estoque._sincronizar`'s loop body: look the code
up in the remote table, insert the record if absent, update it otherwise
(src/estoque.py lines 29-33). -/
def upsert (e : OracleEnv) (db : List Insumo) (i : Insumo) : List Insumo :=
  match OracleGateway.buscar_insumo db i.codigo with
  | none => OracleGateway.inserir_insumo e db i
  | some _ => OracleGateway.atualizar_insumo e db i.codigo i

/-- The remote half of `Estoque._sincronizar`: if `conectar()` succeeds,
upsert every record of the working set in order; otherwise leave the
remote table alone (src/estoque.py lines 28-34). -/
def sincronizarOracle (e : OracleEnv) (insumos : List Insumo) (db : List Insumo) : List Insumo :=
  if e.up then insumos.foldl (upsert e) db else db

/-- `Estoque._sincronizar` (src/estoque.py lines 24-36): best-effort
remote upsert pass, then `Storage.salvar_insumos` overwrites the local
JSON file with the whole working set (src/storage.py lines 29-40; on a
write error the method returns `False` and the operation modelled here
leaves the previous contents). -/
def sincronizar (env : Env) (insumos : List Insumo) (st : Stores) : Stores where
  oracleDb := sincronizarOracle env.oracle insumos st.oracleDb
  localDb := if env.saveOk then insumos else st.localDb

/-- `Estoque.listar_insumos` (src/estoque.py lines 38-42): returns the
working set. -/
def listar_insumos (insumos : List Insumo) : List Insumo := insumos

/-- `Estoque.adicionar_insumo` (src/estoque.py lines 53-64): reject a
duplicate code, otherwise append and synchronize. -/
def adicionar_insumo (env : Env) (insumos : List Insumo) (st : Stores) (i : Insumo) :
    Resultado × List Insumo × Stores :=
  match buscar_insumo insumos i.codigo with
  | some _ => (.codigoDuplicado, insumos, st)
  | none =>
    let insumos' := insumos ++ [i]
    (.sucesso, insumos', sincronizar env insumos' st)

/-- The loop of `Estoque.atualizar_insumo` (src/estoque.py lines 70-75):
replace the first record with the given code by the merge, returning
`none` when no record matches. -/
def atualizarLista : List Insumo → Int → NovosDados → Option (List Insumo)
  | [], _, _ => none
  | i :: rest, c, nd =>
    if i.codigo = c then some (mesclar i nd :: rest)
    else (atualizarLista rest c nd).map (i :: ·)

/-- `Estoque.atualizar_insumo` (src/estoque.py lines 66-78). -/
def atualizar_insumo (env : Env) (insumos : List Insumo) (st : Stores) (c : Int)
    (nd : NovosDados) : Resultado × List Insumo × Stores :=
  match atualizarLista insumos c nd with
  | none => (.naoEncontrado, insumos, st)
  | some insumos' => (.sucesso, insumos', sincronizar env insumos' st)

/-- The loop of `Estoque.remover_insumo` (src/estoque.py lines 84-89):
delete the first record with the given code, `none` when no record
matches. -/
def removerLista : List Insumo → Int → Option (List Insumo)
  | [], _ => none
  | i :: rest, c =>
    if i.codigo = c then some rest
    else (removerLista rest c).map (i :: ·)

/-- `Estoque.remover_insumo` (src/estoque.py lines 80-92). -/
def remover_insumo (env : Env) (insumos : List Insumo) (st : Stores) (c : Int) :
    Resultado × List Insumo × Stores :=
  match removerLista insumos c with
  | none => (.naoEncontrado, insumos, st)
  | some insumos' => (.sucesso, insumos', sincronizar env insumos' st)

/-- In-place mutation of the first record with the given code, as done
through the dictionary reference returned by `buscar_insumo` in
`registrar_entrada` / `registrar_saida`. -/
def modificarPrimeiro (f : Insumo → Insumo) : List Insumo → Int → List Insumo
  | [], _ => []
  | i :: rest, c =>
    if i.codigo = c then f i :: rest else i :: modificarPrimeiro f rest c

/-- `Estoque.registrar_entrada` (src/estoque.py lines 94-111): not-found
and non-positive amounts are rejected, otherwise the quantity increases
by the amount and a synchronization pass runs.  (`validar_float` on an
already-float argument returns it unchanged.) -/
def registrar_entrada (env : Env) (insumos : List Insumo) (st : Stores) (c : Int) (qtd : ℚ) :
    Resultado × List Insumo × Stores :=
  match buscar_insumo insumos c with
  | none => (.naoEncontrado, insumos, st)
  | some _ =>
    if qtd ≤ 0 then (.quantidadeInvalida, insumos, st)
    else
      let insumos' := modificarPrimeiro (fun i => { i with quantidade := i.quantidade + qtd }) insumos c
      (.sucesso, insumos', sincronizar env insumos' st)

/-- `Estoque.registrar_saida` (src/estoque.py lines 113-138): not-found,
non-positive amounts and amounts exceeding the current quantity are
rejected, otherwise the quantity decreases by the amount and a
synchronization pass runs. -/
def registrar_saida (env : Env) (insumos : List Insumo) (st : Stores) (c : Int) (qtd : ℚ) :
    Resultado × List Insumo × Stores :=
  match buscar_insumo insumos c with
  | none => (.naoEncontrado, insumos, st)
  | some ins =>
    if qtd ≤ 0 then (.quantidadeInvalida, insumos, st)
    else if ins.quantidade < qtd then (.estoqueInsuficiente, insumos, st)
    else
      let insumos' := modificarPrimeiro (fun i => { i with quantidade := i.quantidade - qtd }) insumos c
      (.sucesso, insumos', sincronizar env insumos' st)

/-- The projected alert row built by `Estoque.verificar_alertas`
(src/estoque.py lines 144-151): only the keys codigo, nome, quantidade,
unidade, nivel_min. -/
structure Alerta where
  codigo : Int
  nome : String
  quantidade : ℚ
  nivel_min : ℚ
  unidade : String
deriving DecidableEq

/-- The projection of one record to its alert row. -/
def projetarAlerta (i : Insumo) : Alerta where
  codigo := i.codigo
  nome := i.nome
  quantidade := i.quantidade
  nivel_min := i.nivel_min
  unidade := i.unidade

/-- `Estoque.verificar_alertas` (src/estoque.py lines 140-154): the list
comprehension keeps, in order, the records with `quantidade <= nivel_min`
and projects each to its alert row. -/
def verificar_alertas (insumos : List Insumo) : List Alerta :=
  (insumos.filter (fun i => i.quantidade ≤ i.nivel_min)).map projetarAlerta

end Estoque

/-- One Inventory Manager mutation together with its arguments. -/
inductive Op where
  | add (i : Insumo)
  | update (c : Int) (nd : NovosDados)
  | remove (c : Int)
  | entrada (c : Int) (qtd : ℚ)
  | saida (c : Int) (qtd : ℚ)
deriving DecidableEq

/-- Dispatch one mutation to the corresponding `Estoque` method. -/
def executarOp (env : Env) (op : Op) (insumos : List Insumo) (st : Stores) :
    Resultado × List Insumo × Stores :=
  match op with
  | .add i => Estoque.adicionar_insumo env insumos st i
  | .update c nd => Estoque.atualizar_insumo env insumos st c nd
  | .remove c => Estoque.remover_insumo env insumos st c
  | .entrada c qtd => Estoque.registrar_entrada env insumos st c qtd
  | .saida c qtd => Estoque.registrar_saida env insumos st c qtd

/-- Run a sequence of mutations, each under its own environment, from a
working set and store state. -/
def executarTrace : List (Env × Op) → List Insumo × Stores → List Insumo × Stores
  | [], s => s
  | p :: rest, s =>
    let r := executarOp p.1 p.2 s.1 s.2
    executarTrace rest (r.2.1, r.2.2)

end AgroStock

namespace AgroStock

namespace Estoque

theorem buscar_mem {ws : List Insumo} {c : Int} {i : Insumo}
    (h : buscar_insumo ws c = some i) : i ∈ ws ∧ i.codigo = c := by
  induction ws with
  | nil => simp [buscar_insumo] at h
  | cons x rest ih =>
    by_cases hx : x.codigo = c
    · simp [buscar_insumo, hx] at h
      subst h
      exact ⟨List.mem_cons_self x rest, hx⟩
    · simp [buscar_insumo, hx] at h
      rcases ih h with ⟨hm, hc⟩
      exact ⟨List.mem_cons_of_mem x hm, hc⟩

theorem buscar_eq_none {ws : List Insumo} {c : Int} :
    buscar_insumo ws c = none ↔ ∀ i ∈ ws, i.codigo ≠ c := by
  induction ws with
  | nil => simp [buscar_insumo]
  | cons x rest ih =>
    by_cases hx : x.codigo = c
    · simp [buscar_insumo, hx]
    · simp [buscar_insumo, hx, ih]

theorem mem_modificarPrimeiro {f : Insumo → Insumo} {ws : List Insumo} {c : Int} {a : Insumo}
    (h : a ∈ modificarPrimeiro f ws c) :
    a ∈ ws ∨ ∃ i, buscar_insumo ws c = some i ∧ a = f i := by
  induction ws with
  | nil => simp [modificarPrimeiro] at h
  | cons x rest ih =>
    by_cases hx : x.codigo = c
    · simp [modificarPrimeiro, hx] at h
      rcases h with h | h
      · exact Or.inr ⟨x, by simp [buscar_insumo, hx], h⟩
      · exact Or.inl (List.mem_cons_of_mem x h)
    · simp [modificarPrimeiro, hx] at h
      rcases h with h | h
      · exact Or.inl (by simp [h])
      · rcases ih h with h' | ⟨i, hi, ha⟩
        · exact Or.inl (List.mem_cons_of_mem x h')
        · exact Or.inr ⟨i, by simp [buscar_insumo, hx, hi], ha⟩

theorem map_codigo_modificarPrimeiro {f : Insumo → Insumo}
    (hf : ∀ i, (f i).codigo = i.codigo) (ws : List Insumo) (c : Int) :
    (modificarPrimeiro f ws c).map Insumo.codigo = ws.map Insumo.codigo := by
  induction ws with
  | nil => rfl
  | cons x rest ih =>
    by_cases hx : x.codigo = c
    · simp [modificarPrimeiro, hx, hf]
    · simp [modificarPrimeiro, hx, ih]

theorem buscar_modificarPrimeiro (f : Insumo → Insumo)
    (hf : ∀ i, (f i).codigo = i.codigo) (ws : List Insumo) (c : Int) :
    buscar_insumo (modificarPrimeiro f ws c) c = (buscar_insumo ws c).map f := by
  induction ws with
  | nil => rfl
  | cons x rest ih =>
    by_cases hx : x.codigo = c
    · simp [modificarPrimeiro, buscar_insumo, hx, hf]
    · simp [modificarPrimeiro, buscar_insumo, hx, ih]

theorem atualizarLista_spec {ws : List Insumo} {c : Int} {i : Insumo}
    (nd : NovosDados) (h : buscar_insumo ws c = some i) :
    ∃ l₁ l₂, ws = l₁ ++ i :: l₂ ∧ (∀ j ∈ l₁, j.codigo ≠ c) ∧
      atualizarLista ws c nd = some (l₁ ++ mesclar i nd :: l₂) := by
  induction ws with
  | nil => simp [buscar_insumo] at h
  | cons x rest ih =>
    by_cases hx : x.codigo = c
    · simp [buscar_insumo, hx] at h
      subst h
      exact ⟨[], rest, by simp, by simp, by simp [atualizarLista, hx]⟩
    · simp [buscar_insumo, hx] at h
      rcases ih h with ⟨l₁, l₂, hws, hl₁, hupd⟩
      refine ⟨x :: l₁, l₂, by simp [hws], ?_, ?_⟩
      · intro j hj
        rcases List.mem_cons.mp hj with hj | hj
        · subst hj; exact hx
        · exact hl₁ j hj
      · simp [atualizarLista, hx, hupd]

theorem atualizarLista_eq_none {ws : List Insumo} {c : Int} {nd : NovosDados} :
    atualizarLista ws c nd = none ↔ buscar_insumo ws c = none := by
  induction ws with
  | nil => simp [atualizarLista, buscar_insumo]
  | cons x rest ih =>
    by_cases hx : x.codigo = c
    · simp [atualizarLista, buscar_insumo, hx]
    · simp [atualizarLista, buscar_insumo, hx, ih]

theorem mem_atualizarLista {ws ws' : List Insumo} {c : Int} {nd : NovosDados} {a : Insumo}
    (h : atualizarLista ws c nd = some ws') (ha : a ∈ ws') :
    a ∈ ws ∨ ∃ i, i ∈ ws ∧ a = mesclar i nd := by
  induction ws generalizing ws' with
  | nil => simp [atualizarLista] at h
  | cons x rest ih =>
    by_cases hx : x.codigo = c
    · simp [atualizarLista, hx] at h
      subst h
      rcases List.mem_cons.mp ha with ha | ha
      · exact Or.inr ⟨x, List.mem_cons_self x rest, ha⟩
      · exact Or.inl (List.mem_cons_of_mem x ha)
    · simp [atualizarLista, hx] at h
      rcases h with ⟨ws'', hws'', rfl⟩
      rcases List.mem_cons.mp ha with ha | ha
      · exact Or.inl (by simp [ha])
      · rcases ih hws'' ha with h' | ⟨i, hi, ha'⟩
        · exact Or.inl (List.mem_cons_of_mem x h')
        · exact Or.inr ⟨i, List.mem_cons_of_mem x hi, ha'⟩

theorem map_codigo_atualizarLista {ws ws' : List Insumo} {c : Int} {nd : NovosDados}
    (hnd : nd.codigo = none) (h : atualizarLista ws c nd = some ws') :
    ws'.map Insumo.codigo = ws.map Insumo.codigo := by
  induction ws generalizing ws' with
  | nil => simp [atualizarLista] at h
  | cons x rest ih =>
    by_cases hx : x.codigo = c
    · simp [atualizarLista, hx] at h
      subst h
      simp [mesclar, hnd]
    · simp [atualizarLista, hx] at h
      rcases h with ⟨ws'', hws'', rfl⟩
      simp [ih hws'']

theorem removerLista_sublist {ws ws' : List Insumo} {c : Int}
    (h : removerLista ws c = some ws') : ws'.Sublist ws := by
  induction ws generalizing ws' with
  | nil => simp [removerLista] at h
  | cons x rest ih =>
    by_cases hx : x.codigo = c
    · simp [removerLista, hx] at h
      subst h
      exact List.sublist_cons_self x rest
    · simp [removerLista, hx] at h
      rcases h with ⟨ws'', hws'', rfl⟩
      exact List.Sublist.cons₂ x (ih hws'')

theorem removerLista_eq_none {ws : List Insumo} {c : Int} :
    removerLista ws c = none ↔ buscar_insumo ws c = none := by
  induction ws with
  | nil => simp [removerLista, buscar_insumo]
  | cons x rest ih =>
    by_cases hx : x.codigo = c
    · simp [removerLista, buscar_insumo, hx]
    · simp [removerLista, buscar_insumo, hx, ih]

end Estoque

end AgroStock

namespace AgroStock

/-- Working-set precondition of a mutation, as stated in the spec: the
code must be fresh for add, present for the other operations; entry and
exit amounts must be positive, and an exit must not exceed the current
quantity. -/
def opPrecond : Op → List Insumo → Prop
  | .add i, ws => Estoque.buscar_insumo ws i.codigo = none
  | .update c _, ws => (Estoque.buscar_insumo ws c).isSome
  | .remove c, ws => (Estoque.buscar_insumo ws c).isSome
  | .entrada c qtd, ws => (Estoque.buscar_insumo ws c).isSome ∧ 0 < qtd
  | .saida c qtd, ws =>
      ∃ ins, Estoque.buscar_insumo ws c = some ins ∧ 0 < qtd ∧ qtd ≤ ins.quantidade

/-- C4: whenever a mutation's working-set precondition holds, its outcome
is success for every remote environment (gateway down, or any remote
insert/update failing), and — whenever the local write itself goes
through — the local store ends up overwritten with the full current
working set. -/
theorem C4_falha_remota_nao_bloqueia (env : Env) (op : Op) (ws : List Insumo) (st : Stores)
    (hp : opPrecond op ws) :
    (executarOp env op ws st).1 = .sucesso ∧
      (env.saveOk = true →
        (executarOp env op ws st).2.2.localDb = (executarOp env op ws st).2.1) := by
  cases op with
  | add i =>
    simp only [opPrecond] at hp
    refine ⟨by simp [executarOp, Estoque.adicionar_insumo, hp], fun hsave => ?_⟩
    simp [executarOp, Estoque.adicionar_insumo, hp, Estoque.sincronizar, hsave]
  | update c nd =>
    simp only [opPrecond] at hp
    cases hl : Estoque.atualizarLista ws c nd with
    | none =>
      rw [Estoque.atualizarLista_eq_none] at hl
      simp [hl] at hp
    | some l =>
      refine ⟨by simp [executarOp, Estoque.atualizar_insumo, hl], fun hsave => ?_⟩
      simp [executarOp, Estoque.atualizar_insumo, hl, Estoque.sincronizar, hsave]
  | remove c =>
    simp only [opPrecond] at hp
    cases hl : Estoque.removerLista ws c with
    | none =>
      rw [Estoque.removerLista_eq_none] at hl
      simp [hl] at hp
    | some l =>
      refine ⟨by simp [executarOp, Estoque.remover_insumo, hl], fun hsave => ?_⟩
      simp [executarOp, Estoque.remover_insumo, hl, Estoque.sincronizar, hsave]
  | entrada c qtd =>
    simp only [opPrecond] at hp
    obtain ⟨hb, hq⟩ := hp
    cases hbs : Estoque.buscar_insumo ws c with
    | none => simp [hbs] at hb
    | some j =>
      refine ⟨by simp [executarOp, Estoque.registrar_entrada, hbs, not_le.mpr hq],
        fun hsave => ?_⟩
      simp [executarOp, Estoque.registrar_entrada, hbs, not_le.mpr hq,
        Estoque.sincronizar, hsave]
  | saida c qtd =>
    simp only [opPrecond] at hp
    obtain ⟨ins, hbs, hq, hle⟩ := hp
    refine ⟨by simp [executarOp, Estoque.registrar_saida, hbs, not_le.mpr hq, not_lt.mpr hle],
      fun hsave => ?_⟩
    simp [executarOp, Estoque.registrar_saida, hbs, not_le.mpr hq, not_lt.mpr hle,
      Estoque.sincronizar, hsave]

/-- C4 witness: a concrete successful entry under a gateway whose
connection and DML calls all fail. -/
theorem C4_falha_remota_nao_bloqueia_witness :
    opPrecond (Op.entrada 1 5)
        [⟨1, "Ureia", 100, (5 : ℚ)/2, 20, "kg"⟩] ∧
      (executarOp ⟨⟨false, fun _ => false, fun _ => false⟩, true⟩ (Op.entrada 1 5)
          [⟨1, "Ureia", 100, (5 : ℚ)/2, 20, "kg"⟩] ⟨[], []⟩).1 = .sucesso ∧
      ((⟨⟨false, fun _ => false, fun _ => false⟩, true⟩ : Env).saveOk = true →
        (executarOp ⟨⟨false, fun _ => false, fun _ => false⟩, true⟩ (Op.entrada 1 5)
            [⟨1, "Ureia", 100, (5 : ℚ)/2, 20, "kg"⟩] ⟨[], []⟩).2.2.localDb =
          (executarOp ⟨⟨false, fun _ => false, fun _ => false⟩, true⟩ (Op.entrada 1 5)
              [⟨1, "Ureia", 100, (5 : ℚ)/2, 20, "kg"⟩] ⟨[], []⟩).2.1) := by
  refine ⟨?_, C4_falha_remota_nao_bloqueia _ _ _ _ ?_⟩ <;>
    simp [opPrecond, Estoque.buscar_insumo]

/-- C5: an alert row is returned by `verificar_alertas` exactly when the
working set holds a record with `quantidade <= nivel_min` projecting to
it (codigo, nome, quantidade, unidade, nivel_min only); the working set
is read, never changed. -/
theorem C5_alertas_exatamente_limiar (ws : List Insumo) (a : Estoque.Alerta) :
    a ∈ Estoque.verificar_alertas ws ↔
      ∃ i, i ∈ Estoque.listar_insumos ws ∧ i.quantidade ≤ i.nivel_min ∧
        a = Estoque.projetarAlerta i := by
  simp only [Estoque.verificar_alertas, Estoque.listar_insumos, List.mem_map, List.mem_filter,
    decide_eq_true_eq]
  constructor
  · rintro ⟨i, ⟨hi, hle⟩, rfl⟩
    exact ⟨i, hi, hle, rfl⟩
  · rintro ⟨i, hi, hle, rfl⟩
    exact ⟨i, ⟨hi, hle⟩, rfl⟩

/-- C6: with the record present and the amount positive, an exit whose
amount exceeds the current quantity fails with the insufficient-stock
outcome and changes nothing, while an amount at most the current
quantity succeeds and decreases the quantity by exactly that amount. -/
theorem C6_saida_estoque_insuficiente (env : Env) (ws : List Insumo) (st : Stores)
    (c : Int) (qtd : ℚ) (ins : Insumo)
    (hb : Estoque.buscar_insumo ws c = some ins) (hq : 0 < qtd) :
    (ins.quantidade < qtd →
        Estoque.registrar_saida env ws st c qtd = (.estoqueInsuficiente, ws, st)) ∧
      (qtd ≤ ins.quantidade →
        (Estoque.registrar_saida env ws st c qtd).1 = .sucesso ∧
          Estoque.buscar_insumo (Estoque.registrar_saida env ws st c qtd).2.1 c =
            some { ins with quantidade := ins.quantidade - qtd }) := by
  constructor
  · intro hlt
    simp [Estoque.registrar_saida, hb, not_le.mpr hq, hlt]
  · intro hle
    constructor
    · simp [Estoque.registrar_saida, hb, not_le.mpr hq, not_lt.mpr hle]
    · simp only [Estoque.registrar_saida, hb, not_le.mpr hq, if_false, not_lt.mpr hle]
      rw [Estoque.buscar_modificarPrimeiro
          (fun i => { i with quantidade := i.quantidade - qtd }) (fun i => rfl) ws c, hb]
      rfl

/-- C6 witness: code 1 with quantity 10: an exit of 12 is rejected, an
exit of 10 empties the stock. -/
theorem C6_saida_estoque_insuficiente_witness :
    (Estoque.buscar_insumo [⟨1, "Ureia", 10, 2, 4, "kg"⟩] 1 =
        some ⟨1, "Ureia", 10, 2, 4, "kg"⟩) ∧ (0 : ℚ) < 12 ∧
      (((⟨1, "Ureia", 10, 2, 4, "kg"⟩ : Insumo).quantidade < 12 →
        Estoque.registrar_saida ⟨⟨true, fun _ => true, fun _ => true⟩, true⟩
            [⟨1, "Ureia", 10, 2, 4, "kg"⟩] ⟨[], []⟩ 1 12 =
          (.estoqueInsuficiente, [⟨1, "Ureia", 10, 2, 4, "kg"⟩], ⟨[], []⟩)) ∧
      ((12 : ℚ) ≤ (⟨1, "Ureia", 10, 2, 4, "kg"⟩ : Insumo).quantidade →
        (Estoque.registrar_saida ⟨⟨true, fun _ => true, fun _ => true⟩, true⟩
            [⟨1, "Ureia", 10, 2, 4, "kg"⟩] ⟨[], []⟩ 1 12).1 = .sucesso ∧
          Estoque.buscar_insumo (Estoque.registrar_saida
              ⟨⟨true, fun _ => true, fun _ => true⟩, true⟩
              [⟨1, "Ureia", 10, 2, 4, "kg"⟩] ⟨[], []⟩ 1 12).2.1 1 =
            some { (⟨1, "Ureia", 10, 2, 4, "kg"⟩ : Insumo) with
              quantidade := (⟨1, "Ureia", 10, 2, 4, "kg"⟩ : Insumo).quantidade - 12 })) := by
  refine ⟨?_, ?_, C6_saida_estoque_insuficiente _ _ _ _ _ _ ?_ ?_⟩
  · simp [Estoque.buscar_insumo]
  · norm_num
  · simp [Estoque.buscar_insumo]
  · norm_num

end AgroStock

namespace AgroStock

/-- C7: an update of an existing record succeeds, replaces only the first
record carrying the code (the only one when codes are unique, everything
before and after it untouched), and in that record each field present in
the field set takes the supplied value while each absent field keeps its
prior value. -/
theorem C7_atualizacao_parcial (env : Env) (ws : List Insumo) (st : Stores) (c : Int)
    (nd : NovosDados) (ins : Insumo) (hb : Estoque.buscar_insumo ws c = some ins) :
    ∃ l₁ l₂,
      ws = l₁ ++ ins :: l₂ ∧ (∀ j ∈ l₁, j.codigo ≠ c) ∧
      (Estoque.atualizar_insumo env ws st c nd).1 = .sucesso ∧
      (Estoque.atualizar_insumo env ws st c nd).2.1 = l₁ ++ mesclar ins nd :: l₂ ∧
      (nd.codigo = none → (mesclar ins nd).codigo = ins.codigo) ∧
      (∀ v, nd.codigo = some v → (mesclar ins nd).codigo = v) ∧
      (nd.nome = none → (mesclar ins nd).nome = ins.nome) ∧
      (∀ v, nd.nome = some v → (mesclar ins nd).nome = v) ∧
      (nd.quantidade = none → (mesclar ins nd).quantidade = ins.quantidade) ∧
      (∀ v, nd.quantidade = some v → (mesclar ins nd).quantidade = v) ∧
      (nd.preco_unit = none → (mesclar ins nd).preco_unit = ins.preco_unit) ∧
      (∀ v, nd.preco_unit = some v → (mesclar ins nd).preco_unit = v) ∧
      (nd.nivel_min = none → (mesclar ins nd).nivel_min = ins.nivel_min) ∧
      (∀ v, nd.nivel_min = some v → (mesclar ins nd).nivel_min = v) ∧
      (nd.unidade = none → (mesclar ins nd).unidade = ins.unidade) ∧
      (∀ v, nd.unidade = some v → (mesclar ins nd).unidade = v) := by
  obtain ⟨l₁, l₂, hws, hl₁, hupd⟩ := Estoque.atualizarLista_spec nd hb
  refine ⟨l₁, l₂, hws, hl₁, ?_, ?_, ?_, ?_, ?_, ?_, ?_, ?_, ?_, ?_, ?_, ?_, ?_, ?_⟩ <;>
    first
      | simp [Estoque.atualizar_insumo, hupd]
      | (intro h; simp [mesclar, h])
      | (intro v h; simp [mesclar, h])

/-- C7 witness: renaming code 1 to "Ureia 46%" with no other fields
supplied. -/
theorem C7_atualizacao_parcial_witness :
    (Estoque.buscar_insumo [⟨1, "Ureia", 100, 2, 20, "kg"⟩] 1 =
        some ⟨1, "Ureia", 100, 2, 20, "kg"⟩) ∧
      ∃ l₁ l₂,
        [(⟨1, "Ureia", 100, 2, 20, "kg"⟩ : Insumo)] = l₁ ++ ⟨1, "Ureia", 100, 2, 20, "kg"⟩ :: l₂ ∧
        (∀ j ∈ l₁, j.codigo ≠ 1) ∧
        (Estoque.atualizar_insumo ⟨⟨true, fun _ => true, fun _ => true⟩, true⟩
            [⟨1, "Ureia", 100, 2, 20, "kg"⟩] ⟨[], []⟩ 1
            { nome := some "Ureia 46%" }).1 = .sucesso ∧
        (Estoque.atualizar_insumo ⟨⟨true, fun _ => true, fun _ => true⟩, true⟩
            [⟨1, "Ureia", 100, 2, 20, "kg"⟩] ⟨[], []⟩ 1
            { nome := some "Ureia 46%" }).2.1 =
          l₁ ++ mesclar ⟨1, "Ureia", 100, 2, 20, "kg"⟩ { nome := some "Ureia 46%" } :: l₂ ∧
        (({ nome := some "Ureia 46%" } : NovosDados).codigo = none →
          (mesclar ⟨1, "Ureia", 100, 2, 20, "kg"⟩ { nome := some "Ureia 46%" }).codigo = 1) ∧
        (∀ v, ({ nome := some "Ureia 46%" } : NovosDados).codigo = some v →
          (mesclar ⟨1, "Ureia", 100, 2, 20, "kg"⟩ { nome := some "Ureia 46%" }).codigo = v) ∧
        (({ nome := some "Ureia 46%" } : NovosDados).nome = none →
          (mesclar ⟨1, "Ureia", 100, 2, 20, "kg"⟩ { nome := some "Ureia 46%" }).nome = "Ureia") ∧
        (∀ v, ({ nome := some "Ureia 46%" } : NovosDados).nome = some v →
          (mesclar ⟨1, "Ureia", 100, 2, 20, "kg"⟩ { nome := some "Ureia 46%" }).nome = v) ∧
        (({ nome := some "Ureia 46%" } : NovosDados).quantidade = none →
          (mesclar ⟨1, "Ureia", 100, 2, 20, "kg"⟩ { nome := some "Ureia 46%" }).quantidade = 100) ∧
        (∀ v, ({ nome := some "Ureia 46%" } : NovosDados).quantidade = some v →
          (mesclar ⟨1, "Ureia", 100, 2, 20, "kg"⟩ { nome := some "Ureia 46%" }).quantidade = v) ∧
        (({ nome := some "Ureia 46%" } : NovosDados).preco_unit = none →
          (mesclar ⟨1, "Ureia", 100, 2, 20, "kg"⟩ { nome := some "Ureia 46%" }).preco_unit = 2) ∧
        (∀ v, ({ nome := some "Ureia 46%" } : NovosDados).preco_unit = some v →
          (mesclar ⟨1, "Ureia", 100, 2, 20, "kg"⟩ { nome := some "Ureia 46%" }).preco_unit = v) ∧
        (({ nome := some "Ureia 46%" } : NovosDados).nivel_min = none →
          (mesclar ⟨1, "Ureia", 100, 2, 20, "kg"⟩ { nome := some "Ureia 46%" }).nivel_min = 20) ∧
        (∀ v, ({ nome := some "Ureia 46%" } : NovosDados).nivel_min = some v →
          (mesclar ⟨1, "Ureia", 100, 2, 20, "kg"⟩ { nome := some "Ureia 46%" }).nivel_min = v) ∧
        (({ nome := some "Ureia 46%" } : NovosDados).unidade = none →
          (mesclar ⟨1, "Ureia", 100, 2, 20, "kg"⟩ { nome := some "Ureia 46%" }).unidade = "kg") ∧
        (∀ v, ({ nome := some "Ureia 46%" } : NovosDados).unidade = some v →
          (mesclar ⟨1, "Ureia", 100, 2, 20, "kg"⟩ { nome := some "Ureia 46%" }).unidade = v) := by
  exact ⟨by simp [Estoque.buscar_insumo],
    C7_atualizacao_parcial _ _ _ _ _ _ (by simp [Estoque.buscar_insumo])⟩

/-- C8: adding a record whose code is already present fails with the
duplicate-code outcome leaving everything unchanged; otherwise the add
succeeds and appends the record at the end of the working set. -/
theorem C8_adicionar_codigo_duplicado (env : Env) (ws : List Insumo) (st : Stores)
    (i : Insumo) :
    Estoque.adicionar_insumo env ws st i =
      if (Estoque.buscar_insumo ws i.codigo).isSome then (.codigoDuplicado, ws, st)
      else (.sucesso, ws ++ [i], Estoque.sincronizar env (ws ++ [i]) st) := by
  unfold Estoque.adicionar_insumo
  cases h : Estoque.buscar_insumo ws i.codigo <;> simp [h]

/-- C9: every mutation that reports a failure outcome leaves the working
set and both stores exactly as they were: no synchronization pass runs on
any error path. -/
theorem C9_falha_nao_sincroniza (env : Env) (op : Op) (ws : List Insumo) (st : Stores)
    (h : (executarOp env op ws st).1 ≠ .sucesso) :
    (executarOp env op ws st).2.1 = ws ∧ (executarOp env op ws st).2.2 = st := by
  cases op with
  | add i =>
    cases hb : Estoque.buscar_insumo ws i.codigo with
    | none => exact absurd (by simp [executarOp, Estoque.adicionar_insumo, hb]) h
    | some j => simp [executarOp, Estoque.adicionar_insumo, hb]
  | update c nd =>
    cases hl : Estoque.atualizarLista ws c nd with
    | none => simp [executarOp, Estoque.atualizar_insumo, hl]
    | some l => exact absurd (by simp [executarOp, Estoque.atualizar_insumo, hl]) h
  | remove c =>
    cases hl : Estoque.removerLista ws c with
    | none => simp [executarOp, Estoque.remover_insumo, hl]
    | some l => exact absurd (by simp [executarOp, Estoque.remover_insumo, hl]) h
  | entrada c qtd =>
    cases hb : Estoque.buscar_insumo ws c with
    | none => simp [executarOp, Estoque.registrar_entrada, hb]
    | some j =>
      by_cases hq : qtd ≤ 0
      · simp [executarOp, Estoque.registrar_entrada, hb, hq]
      · exact absurd (by simp [executarOp, Estoque.registrar_entrada, hb, hq]) h
  | saida c qtd =>
    cases hb : Estoque.buscar_insumo ws c with
    | none => simp [executarOp, Estoque.registrar_saida, hb]
    | some j =>
      by_cases hq : qtd ≤ 0
      · simp [executarOp, Estoque.registrar_saida, hb, hq]
      · by_cases hlt : j.quantidade < qtd
        · simp [executarOp, Estoque.registrar_saida, hb, hq, hlt]
        · exact absurd (by simp [executarOp, Estoque.registrar_saida, hb, hq, hlt]) h

/-- C9 witness: a rejected duplicate add leaves the working set and both
stores untouched. -/
theorem C9_falha_nao_sincroniza_witness :
    ((executarOp ⟨⟨true, fun _ => true, fun _ => true⟩, true⟩
          (Op.add ⟨1, "Calcario", 7, 1, 2, "kg"⟩)
          [⟨1, "Ureia", 100, 2, 20, "kg"⟩] ⟨[], []⟩).1 ≠ .sucesso) ∧
      (executarOp ⟨⟨true, fun _ => true, fun _ => true⟩, true⟩
          (Op.add ⟨1, "Calcario", 7, 1, 2, "kg"⟩)
          [⟨1, "Ureia", 100, 2, 20, "kg"⟩] ⟨[], []⟩).2.1 =
        [⟨1, "Ureia", 100, 2, 20, "kg"⟩] ∧
      (executarOp ⟨⟨true, fun _ => true, fun _ => true⟩, true⟩
          (Op.add ⟨1, "Calcario", 7, 1, 2, "kg"⟩)
          [⟨1, "Ureia", 100, 2, 20, "kg"⟩] ⟨[], []⟩).2.2 = ⟨[], []⟩ := by
  have hne : (executarOp ⟨⟨true, fun _ => true, fun _ => true⟩, true⟩
      (Op.add ⟨1, "Calcario", 7, 1, 2, "kg"⟩)
      [⟨1, "Ureia", 100, 2, 20, "kg"⟩] ⟨[], []⟩).1 ≠ .sucesso := by
    simp [executarOp, Estoque.adicionar_insumo, Estoque.buscar_insumo]
  exact ⟨hne, C9_falha_nao_sincroniza _ _ _ _ hne⟩

/-- C10: the alert list is the order-preserving projection of the
sublist of the working set satisfying the alert condition — the same
relative order as `listar_insumos`, nothing reordered, duplicated or
dropped. -/
theorem C10_alertas_sublista_ordenada (ws : List Insumo) :
    Estoque.verificar_alertas ws =
        ((Estoque.listar_insumos ws).filter
          (fun i => i.quantidade ≤ i.nivel_min)).map Estoque.projetarAlerta ∧
      (Estoque.verificar_alertas ws).Sublist
        ((Estoque.listar_insumos ws).map Estoque.projetarAlerta) := by
  exact ⟨rfl, (List.filter_sublist _).map _⟩

end AgroStock

namespace AgroStock

/-- The key column of every row of a record collection. -/
def codigos (db : List Insumo) : List Int := db.map Insumo.codigo

/-- The five non-key columns of a row agree with a record. -/
def camposIguais (i r : Insumo) : Prop :=
  r.nome = i.nome ∧ r.quantidade = i.quantidade ∧ r.unidade = i.unidade ∧
    r.preco_unit = i.preco_unit ∧ r.nivel_min = i.nivel_min

/-- Every remote row keyed by the record's code already carries the
record's five data columns. -/
def sincronizado (i : Insumo) (db : List Insumo) : Prop :=
  ∀ r ∈ db, r.codigo = i.codigo → camposIguais i r

/-- State of the remote table after which upserting the record again is
a no-op: the code is present unless its insert is doomed to fail, and if
its update can succeed the matching rows already carry the record. -/
def upsertEstavel (e : OracleEnv) (i : Insumo) (db : List Insumo) : Prop :=
  (i.codigo ∈ codigos db ∨ e.insertOk i.codigo = false) ∧
    (e.updateOk i.codigo = true → sincronizado i db)

theorem oracleBuscar_eq_none {db : List Insumo} {c : Int} :
    OracleGateway.buscar_insumo db c = none ↔ ∀ r ∈ db, r.codigo ≠ c := by
  induction db with
  | nil => simp [OracleGateway.buscar_insumo]
  | cons x rest ih =>
    by_cases hx : x.codigo = c
    · simp [OracleGateway.buscar_insumo, hx]
    · simp [OracleGateway.buscar_insumo, hx, ih]

theorem oracleBuscar_mem {db : List Insumo} {c : Int} {r : Insumo}
    (h : OracleGateway.buscar_insumo db c = some r) : r ∈ db ∧ r.codigo = c := by
  induction db with
  | nil => simp [OracleGateway.buscar_insumo] at h
  | cons x rest ih =>
    by_cases hx : x.codigo = c
    · simp [OracleGateway.buscar_insumo, hx] at h
      subst h
      exact ⟨List.mem_cons_self x rest, hx⟩
    · simp [OracleGateway.buscar_insumo, hx] at h
      rcases ih h with ⟨hm, hc⟩
      exact ⟨List.mem_cons_of_mem x hm, hc⟩

theorem codigos_oracleAtualizar (e : OracleEnv) (db : List Insumo) (c : Int) (i : Insumo) :
    codigos (OracleGateway.atualizar_insumo e db c i) = codigos db := by
  unfold OracleGateway.atualizar_insumo
  by_cases hu : e.updateOk c
  · simp only [hu, if_true, codigos, List.map_map]
    refine List.map_congr_left fun r _ => ?_
    by_cases hr : r.codigo = c <;> simp [hr, OracleGateway.atualizarLinha]
  · simp [hu]

theorem codigos_upsert_mono {c' : Int} (e : OracleEnv) (db : List Insumo) (i : Insumo)
    (h : c' ∈ codigos db) : c' ∈ codigos (Estoque.upsert e db i) := by
  unfold Estoque.upsert
  cases hb : OracleGateway.buscar_insumo db i.codigo with
  | none =>
    unfold OracleGateway.inserir_insumo
    by_cases hins : e.insertOk i.codigo
    · simp only [hins, if_true, codigos, List.map_append]
      exact List.mem_append_left _ h
    · simpa [hins] using h
  | some r => simpa [codigos_oracleAtualizar] using h

theorem sincronizado_upsert_of_ne (e : OracleEnv) {i j : Insumo} (db : List Insumo)
    (hne : j.codigo ≠ i.codigo) (h : sincronizado i db) :
    sincronizado i (Estoque.upsert e db j) := by
  unfold Estoque.upsert
  cases hb : OracleGateway.buscar_insumo db j.codigo with
  | none =>
    unfold OracleGateway.inserir_insumo
    by_cases hins : e.insertOk j.codigo
    · simp only [hins, if_true]
      intro r hr hrc
      rcases List.mem_append.mp hr with hr | hr
      · exact h r hr hrc
      · rcases List.mem_singleton.mp hr with rfl
        exact absurd hrc hne
    · simpa [hins] using h
  | some r0 =>
    unfold OracleGateway.atualizar_insumo
    by_cases hu : e.updateOk j.codigo
    · simp only [hu, if_true]
      intro r hr hrc
      rcases List.mem_map.mp hr with ⟨x, hx, rfl⟩
      by_cases hxc : x.codigo = j.codigo
      · simp only [hxc, if_true, OracleGateway.atualizarLinha] at hrc ⊢
        exact absurd (hxc ▸ hrc) hne
      · simp only [hxc, if_false] at hrc ⊢
        exact h x hx hrc
    · simpa [hu] using h

theorem upsertEstavel_post (e : OracleEnv) (db : List Insumo) (i : Insumo) :
    upsertEstavel e i (Estoque.upsert e db i) := by
  unfold Estoque.upsert
  cases hb : OracleGateway.buscar_insumo db i.codigo with
  | none =>
    have habs : ∀ r ∈ db, r.codigo ≠ i.codigo := oracleBuscar_eq_none.mp hb
    unfold OracleGateway.inserir_insumo
    by_cases hins : e.insertOk i.codigo
    · simp only [hins, if_true]
      refine ⟨Or.inl ?_, fun _ r hr hrc => ?_⟩
      · simp [codigos]
      · rcases List.mem_append.mp hr with hr | hr
        · exact absurd hrc (habs r hr)
        · rcases List.mem_singleton.mp hr with rfl
          simp [camposIguais]
    · simp only [hins, if_false]
      exact ⟨Or.inr (by simpa using hins), fun _ r hr hrc => absurd hrc (habs r hr)⟩
  | some r0 =>
    obtain ⟨hr0m, hr0c⟩ := oracleBuscar_mem hb
    have hpres : i.codigo ∈ codigos db := by
      simp only [codigos, List.mem_map]
      exact ⟨r0, hr0m, hr0c⟩
    refine ⟨Or.inl ?_, fun hu r hr hrc => ?_⟩
    · rw [codigos_oracleAtualizar]
      exact hpres
    · unfold OracleGateway.atualizar_insumo at hr
      simp only [hu, if_true] at hr
      rcases List.mem_map.mp hr with ⟨x, hx, rfl⟩
      by_cases hxc : x.codigo = i.codigo
      · simp [hxc, OracleGateway.atualizarLinha, camposIguais]
      · simp [hxc] at hrc

theorem upsertEstavel_preserva (e : OracleEnv) {i j : Insumo} (db : List Insumo)
    (hne : j.codigo ≠ i.codigo) (h : upsertEstavel e i db) :
    upsertEstavel e i (Estoque.upsert e db j) := by
  obtain ⟨h1, h2⟩ := h
  refine ⟨?_, fun hu => sincronizado_upsert_of_ne e db hne (h2 hu)⟩
  rcases h1 with h1 | h1
  · exact Or.inl (codigos_upsert_mono e db j h1)
  · exact Or.inr h1

theorem upsertEstavel_foldl_preserva (e : OracleEnv) {i : Insumo} {l : List Insumo}
    (db : List Insumo) (hl : ∀ j ∈ l, j.codigo ≠ i.codigo) (h : upsertEstavel e i db) :
    upsertEstavel e i (l.foldl (Estoque.upsert e) db) := by
  induction l generalizing db with
  | nil => exact h
  | cons x rest ih =>
    exact ih _ (fun j hj => hl j (List.mem_cons_of_mem x hj))
      (upsertEstavel_preserva e db (hl x (List.mem_cons_self x rest)) h)

theorem upsertEstavel_foldl (e : OracleEnv) (ws : List Insumo) :
    ∀ db : List Insumo, (codigos ws).Nodup → ∀ i ∈ ws,
      upsertEstavel e i (ws.foldl (Estoque.upsert e) db) := by
  induction ws with
  | nil => intro db _ i hi; simp at hi
  | cons x rest ih =>
    intro db hnd i hi
    simp only [codigos, List.map_cons, List.nodup_cons] at hnd
    obtain ⟨hx, hrest⟩ := hnd
    simp only [List.foldl_cons]
    rcases List.mem_cons.mp hi with rfl | hi
    · have hall : ∀ j ∈ rest, j.codigo ≠ i.codigo := by
        intro j hj hjc
        exact hx (hjc ▸ List.mem_map_of_mem Insumo.codigo hj)
      exact upsertEstavel_foldl_preserva e _ hall (upsertEstavel_post e db i)
    · exact ih (Estoque.upsert e db x) hrest i hi

theorem upsert_fixo (e : OracleEnv) {i : Insumo} {db : List Insumo}
    (h : upsertEstavel e i db) : Estoque.upsert e db i = db := by
  obtain ⟨h1, h2⟩ := h
  unfold Estoque.upsert
  cases hb : OracleGateway.buscar_insumo db i.codigo with
  | none =>
    have habs : ∀ r ∈ db, r.codigo ≠ i.codigo := oracleBuscar_eq_none.mp hb
    have hnotm : i.codigo ∉ codigos db := by
      simp only [codigos, List.mem_map]
      rintro ⟨r, hr, hrc⟩
      exact habs r hr hrc
    rcases h1 with h1 | h1
    · exact absurd h1 hnotm
    · simp [OracleGateway.inserir_insumo, h1]
  | some r0 =>
    unfold OracleGateway.atualizar_insumo
    by_cases hu : e.updateOk i.codigo
    · simp only [hu, if_true]
      have : ∀ r ∈ db, (if r.codigo = i.codigo then OracleGateway.atualizarLinha i r else r) = r := by
        intro r hr
        by_cases hrc : r.codigo = i.codigo
        · obtain ⟨hn, hq, hun, hp, hm⟩ := h2 hu r hr hrc
          simp only [hrc, if_true, OracleGateway.atualizarLinha]
          cases r
          simp_all
        · simp [hrc]
      rw [List.map_congr_left this]
      simp
    · simp [hu]

theorem foldl_upsert_fixo (e : OracleEnv) {ws db : List Insumo}
    (h : ∀ i ∈ ws, Estoque.upsert e db i = db) :
    ws.foldl (Estoque.upsert e) db = db := by
  induction ws with
  | nil => rfl
  | cons x rest ih =>
    simp only [List.foldl_cons, h x (List.mem_cons_self x rest)]
    exact ih fun i hi => h i (List.mem_cons_of_mem x hi)

theorem sincronizarOracle_idem (e : OracleEnv) (ws db : List Insumo)
    (hnd : (codigos ws).Nodup) :
    Estoque.sincronizarOracle e ws (Estoque.sincronizarOracle e ws db) =
      Estoque.sincronizarOracle e ws db := by
  unfold Estoque.sincronizarOracle
  by_cases hup : e.up
  · simp only [hup, if_true]
    exact foldl_upsert_fixo e fun i hi =>
      upsert_fixo e (upsertEstavel_foldl e ws db hnd i hi)
  · simp [hup]

/-- C3: with the working set unchanged in between (and its codes
pairwise distinct, the working-set invariant), a second synchronization
pass under the same environment leaves both the remote table and the
local file exactly as the first pass left them. -/
theorem C3_sincronizacao_idempotente (env : Env) (ws : List Insumo) (st : Stores)
    (hnd : (codigos ws).Nodup) :
    Estoque.sincronizar env ws (Estoque.sincronizar env ws st) =
      Estoque.sincronizar env ws st := by
  unfold Estoque.sincronizar
  simp only [Stores.mk.injEq]
  refine ⟨sincronizarOracle_idem env.oracle ws st.oracleDb hnd, ?_⟩
  by_cases hs : env.saveOk <;> simp [hs]

/-- C3 witness: one record over an initially stale remote row and an
empty local file. -/
theorem C3_sincronizacao_idempotente_witness :
    (codigos [⟨1, "Ureia", 100, 2, 20, "kg"⟩]).Nodup ∧
      Estoque.sincronizar ⟨⟨true, fun _ => true, fun _ => true⟩, true⟩
          [⟨1, "Ureia", 100, 2, 20, "kg"⟩]
          (Estoque.sincronizar ⟨⟨true, fun _ => true, fun _ => true⟩, true⟩
            [⟨1, "Ureia", 100, 2, 20, "kg"⟩] ⟨[⟨1, "Velho", 3, 1, 9, "L"⟩], []⟩) =
        Estoque.sincronizar ⟨⟨true, fun _ => true, fun _ => true⟩, true⟩
          [⟨1, "Ureia", 100, 2, 20, "kg"⟩] ⟨[⟨1, "Velho", 3, 1, 9, "L"⟩], []⟩ := by
  exact ⟨by simp [codigos], C3_sincronizacao_idempotente _ _ _ (by simp [codigos])⟩

end AgroStock

namespace AgroStock

/-- All quantities of the working set are non-negative. -/
def quantidadesNaoNegativas (ws : List Insumo) : Prop := ∀ i ∈ ws, 0 ≤ i.quantidade

/-- The codes of the working set are pairwise distinct. -/
def codigosDistintos (ws : List Insumo) : Prop := (codigos ws).Nodup

/-- The mutation supplies no negative quantity of its own: an added
record carries a non-negative quantity, and an update's quantity field,
when present, is non-negative. -/
def opQuantidadeOk : Op → Prop
  | .add i => 0 ≤ i.quantidade
  | .update _ nd => ∀ q, nd.quantidade = some q → 0 ≤ q
  | _ => True

/-- The mutation does not rewrite the code field: an update's field set
leaves the code absent. -/
def opCodigoOk : Op → Prop
  | .update _ nd => nd.codigo = none
  | _ => True

theorem passo_quantidades (env : Env) (op : Op) (ws : List Insumo) (st : Stores)
    (hws : quantidadesNaoNegativas ws) (hop : opQuantidadeOk op) :
    quantidadesNaoNegativas (executarOp env op ws st).2.1 := by
  cases op with
  | add i =>
    cases hb : Estoque.buscar_insumo ws i.codigo with
    | some j => simpa [executarOp, Estoque.adicionar_insumo, hb] using hws
    | none =>
      simp only [executarOp, Estoque.adicionar_insumo, hb]
      intro a ha
      rcases List.mem_append.mp ha with ha | ha
      · exact hws a ha
      · rcases List.mem_singleton.mp ha with rfl
        exact hop
  | update c nd =>
    cases hl : Estoque.atualizarLista ws c nd with
    | none => simpa [executarOp, Estoque.atualizar_insumo, hl] using hws
    | some l =>
      simp only [executarOp, Estoque.atualizar_insumo, hl]
      intro a ha
      rcases Estoque.mem_atualizarLista hl ha with ha | ⟨i, hi, rfl⟩
      · exact hws a ha
      · cases hq : nd.quantidade with
        | none => simpa [mesclar, hq] using hws i hi
        | some q => simpa [mesclar, hq] using hop q hq
  | remove c =>
    cases hl : Estoque.removerLista ws c with
    | none => simpa [executarOp, Estoque.remover_insumo, hl] using hws
    | some l =>
      simp only [executarOp, Estoque.remover_insumo, hl]
      intro a ha
      exact hws a ((Estoque.removerLista_sublist hl).subset ha)
  | entrada c qtd =>
    cases hb : Estoque.buscar_insumo ws c with
    | none => simpa [executarOp, Estoque.registrar_entrada, hb] using hws
    | some j =>
      by_cases hq : qtd ≤ 0
      · simpa [executarOp, Estoque.registrar_entrada, hb, hq] using hws
      · simp only [executarOp, Estoque.registrar_entrada, hb, if_neg hq]
        intro a ha
        rcases Estoque.mem_modificarPrimeiro ha with ha | ⟨i, hbi, rfl⟩
        · exact hws a ha
        · have hi : i ∈ ws := (Estoque.buscar_mem hbi).1
          exact add_nonneg (hws i hi) (le_of_lt (not_le.mp hq))
  | saida c qtd =>
    cases hb : Estoque.buscar_insumo ws c with
    | none => simpa [executarOp, Estoque.registrar_saida, hb] using hws
    | some j =>
      by_cases hq : qtd ≤ 0
      · simpa [executarOp, Estoque.registrar_saida, hb, hq] using hws
      · by_cases hlt : j.quantidade < qtd
        · simpa [executarOp, Estoque.registrar_saida, hb, hq, hlt] using hws
        · simp only [executarOp, Estoque.registrar_saida, hb, if_neg hq, if_neg hlt]
          intro a ha
          rcases Estoque.mem_modificarPrimeiro ha with ha | ⟨i, hbi, rfl⟩
          · exact hws a ha
          · have hij : i = j := by
              rw [hb] at hbi
              exact (Option.some.inj hbi).symm
            subst hij
            simpa using sub_nonneg.mpr (not_lt.mp hlt)

theorem passo_codigos (env : Env) (op : Op) (ws : List Insumo) (st : Stores)
    (hws : codigosDistintos ws) (hop : opCodigoOk op) :
    codigosDistintos (executarOp env op ws st).2.1 := by
  cases op with
  | add i =>
    cases hb : Estoque.buscar_insumo ws i.codigo with
    | some j => simpa [executarOp, Estoque.adicionar_insumo, hb] using hws
    | none =>
      simp only [executarOp, Estoque.adicionar_insumo, hb]
      have hnm : ∀ j ∈ ws, j.codigo ≠ i.codigo := fun j hj hjc =>
        Estoque.buscar_eq_none.mp hb j hj hjc
      simpa [codigosDistintos, codigos, List.nodup_append] using ⟨hws, hnm⟩
  | update c nd =>
    cases hl : Estoque.atualizarLista ws c nd with
    | none => simpa [executarOp, Estoque.atualizar_insumo, hl] using hws
    | some l =>
      simp only [executarOp, Estoque.atualizar_insumo, hl]
      have := Estoque.map_codigo_atualizarLista hop hl
      simpa [codigosDistintos, codigos, this] using hws
  | remove c =>
    cases hl : Estoque.removerLista ws c with
    | none => simpa [executarOp, Estoque.remover_insumo, hl] using hws
    | some l =>
      simp only [executarOp, Estoque.remover_insumo, hl]
      exact ((Estoque.removerLista_sublist hl).map Insumo.codigo).nodup hws
  | entrada c qtd =>
    cases hb : Estoque.buscar_insumo ws c with
    | none => simpa [executarOp, Estoque.registrar_entrada, hb] using hws
    | some j =>
      by_cases hq : qtd ≤ 0
      · simpa [executarOp, Estoque.registrar_entrada, hb, hq] using hws
      · simp only [executarOp, Estoque.registrar_entrada, hb, if_neg hq]
        have := Estoque.map_codigo_modificarPrimeiro
          (f := fun i => { i with quantidade := i.quantidade + qtd }) (fun i => rfl) ws c
        simpa [codigosDistintos, codigos, this] using hws
  | saida c qtd =>
    cases hb : Estoque.buscar_insumo ws c with
    | none => simpa [executarOp, Estoque.registrar_saida, hb] using hws
    | some j =>
      by_cases hq : qtd ≤ 0
      · simpa [executarOp, Estoque.registrar_saida, hb, hq] using hws
      · by_cases hlt : j.quantidade < qtd
        · simpa [executarOp, Estoque.registrar_saida, hb, hq, hlt] using hws
        · simp only [executarOp, Estoque.registrar_saida, hb, if_neg hq, if_neg hlt]
          have := Estoque.map_codigo_modificarPrimeiro
            (f := fun i => { i with quantidade := i.quantidade - qtd }) (fun i => rfl) ws c
          simpa [codigosDistintos, codigos, this] using hws

end AgroStock

namespace AgroStock

/-- C1 (amended): along any operation sequence whose added records carry
non-negative quantities and whose updates, when they supply the quantity
field, supply a non-negative value, every quantity of the working set
stays non-negative — in particular the exit guard rejects any exit that
would drive a quantity negative.  (Unrestricted add/update can introduce
negative quantities: see the counterexample.) -/
theorem C1_quantidades_invariante (tr : List (Env × Op)) (ws : List Insumo) (st : Stores)
    (hws : quantidadesNaoNegativas ws) (htr : ∀ p ∈ tr, opQuantidadeOk p.2) :
    quantidadesNaoNegativas (executarTrace tr (ws, st)).1 := by
  induction tr generalizing ws st with
  | nil => exact hws
  | cons p rest ih =>
    simp only [executarTrace]
    exact ih _ _ (passo_quantidades p.1 p.2 ws st hws (htr p (List.mem_cons_self p rest)))
      (fun q hq => htr q (List.mem_cons_of_mem p hq))

/-- C1 witness: an add followed by an exit, starting from the empty
working set. -/
theorem C1_quantidades_invariante_witness :
    quantidadesNaoNegativas [] ∧
      (∀ p ∈ ([(⟨⟨true, fun _ => true, fun _ => true⟩, true⟩,
            Op.add ⟨1, "Ureia", 100, 2, 20, "kg"⟩),
          (⟨⟨true, fun _ => true, fun _ => true⟩, true⟩, Op.saida 1 30)] : List (Env × Op)),
        opQuantidadeOk p.2) ∧
      quantidadesNaoNegativas
        (executarTrace [(⟨⟨true, fun _ => true, fun _ => true⟩, true⟩,
            Op.add ⟨1, "Ureia", 100, 2, 20, "kg"⟩),
          (⟨⟨true, fun _ => true, fun _ => true⟩, true⟩, Op.saida 1 30)]
          ([], ⟨[], []⟩)).1 := by
  have h1 : quantidadesNaoNegativas ([] : List Insumo) := fun i hi => absurd hi (List.not_mem_nil i)
  have h2 : ∀ p ∈ ([(⟨⟨true, fun _ => true, fun _ => true⟩, true⟩,
        Op.add ⟨1, "Ureia", 100, 2, 20, "kg"⟩),
      (⟨⟨true, fun _ => true, fun _ => true⟩, true⟩, Op.saida 1 30)] : List (Env × Op)),
      opQuantidadeOk p.2 := by
    intro p hp
    rcases List.mem_cons.mp hp with rfl | hp
    · simp only [opQuantidadeOk]
      norm_num
    · rcases List.mem_cons.mp hp with rfl | hp
      · simp only [opQuantidadeOk]
      · simp at hp
  exact ⟨h1, h2, C1_quantidades_invariante _ _ _ h1 h2⟩

/-- C1 counterexample: from a working set whose only record has quantity
5, the single operation `update(1, \x7bquantidade: -3\x7d)` is reported
as a success and leaves a negative quantity in the working set — the
update path validates nothing, so not every operation that would make a
quantity negative is rejected. -/
theorem C1_quantidades_contraexemplo :
    quantidadesNaoNegativas [⟨1, "Ureia", 5, 2, 1, "kg"⟩] ∧
      (executarOp ⟨⟨true, fun _ => true, fun _ => true⟩, true⟩
          (Op.update 1 { quantidade := some (-3) })
          [⟨1, "Ureia", 5, 2, 1, "kg"⟩] ⟨[], []⟩).1 = .sucesso ∧
      ¬ quantidadesNaoNegativas
        (executarTrace [(⟨⟨true, fun _ => true, fun _ => true⟩, true⟩,
            Op.update 1 { quantidade := some (-3) })]
          ([⟨1, "Ureia", 5, 2, 1, "kg"⟩], ⟨[], []⟩)).1 := by
  refine ⟨?_, by decide, ?_⟩
  · unfold quantidadesNaoNegativas
    decide
  · unfold quantidadesNaoNegativas
    decide

/-- C2 (amended): along any operation sequence whose updates never carry
the code field in their field set, the codes of the working set stay
pairwise distinct.  (An update that rewrites the code field can forge a
duplicate: see the counterexample.) -/
theorem C2_codigos_invariante (tr : List (Env × Op)) (ws : List Insumo) (st : Stores)
    (hws : codigosDistintos ws) (htr : ∀ p ∈ tr, opCodigoOk p.2) :
    codigosDistintos (executarTrace tr (ws, st)).1 := by
  induction tr generalizing ws st with
  | nil => exact hws
  | cons p rest ih =>
    simp only [executarTrace]
    exact ih _ _ (passo_codigos p.1 p.2 ws st hws (htr p (List.mem_cons_self p rest)))
      (fun q hq => htr q (List.mem_cons_of_mem p hq))

/-- C2 witness: two adds with distinct codes, starting from the empty
working set. -/
theorem C2_codigos_invariante_witness :
    codigosDistintos [] ∧
      (∀ p ∈ ([(⟨⟨true, fun _ => true, fun _ => true⟩, true⟩,
            Op.add ⟨1, "Ureia", 100, 2, 20, "kg"⟩),
          (⟨⟨true, fun _ => true, fun _ => true⟩, true⟩,
            Op.add ⟨2, "Calcario", 50, 1, 10, "kg"⟩)] : List (Env × Op)),
        opCodigoOk p.2) ∧
      codigosDistintos
        (executarTrace [(⟨⟨true, fun _ => true, fun _ => true⟩, true⟩,
            Op.add ⟨1, "Ureia", 100, 2, 20, "kg"⟩),
          (⟨⟨true, fun _ => true, fun _ => true⟩, true⟩,
            Op.add ⟨2, "Calcario", 50, 1, 10, "kg"⟩)]
          ([], ⟨[], []⟩)).1 := by
  have h1 : codigosDistintos ([] : List Insumo) := List.nodup_nil
  have h2 : ∀ p ∈ ([(⟨⟨true, fun _ => true, fun _ => true⟩, true⟩,
        Op.add ⟨1, "Ureia", 100, 2, 20, "kg"⟩),
      (⟨⟨true, fun _ => true, fun _ => true⟩, true⟩,
        Op.add ⟨2, "Calcario", 50, 1, 10, "kg"⟩)] : List (Env × Op)),
      opCodigoOk p.2 := by
    intro p hp
    rcases List.mem_cons.mp hp with rfl | hp
    · simp only [opCodigoOk]
    · rcases List.mem_cons.mp hp with rfl | hp
      · simp only [opCodigoOk]
      · simp at hp
  exact ⟨h1, h2, C2_codigos_invariante _ _ _ h1 h2⟩

/-- C2 counterexample: from a working set with the distinct codes 1 and
2, the single operation `update(1, \x7bcodigo: 2\x7d)` is reported as a
success and leaves two records with code 2 — the unrestricted dictionary
merge can rewrite the key itself. -/
theorem C2_codigos_contraexemplo :
    codigosDistintos [⟨1, "Ureia", 100, 2, 20, "kg"⟩, ⟨2, "Calcario", 50, 1, 10, "kg"⟩] ∧
      (executarOp ⟨⟨true, fun _ => true, fun _ => true⟩, true⟩
          (Op.update 1 { codigo := some 2 })
          [⟨1, "Ureia", 100, 2, 20, "kg"⟩, ⟨2, "Calcario", 50, 1, 10, "kg"⟩] ⟨[], []⟩).1 =
        .sucesso ∧
      ¬ codigosDistintos
        (executarTrace [(⟨⟨true, fun _ => true, fun _ => true⟩, true⟩,
            Op.update 1 { codigo := some 2 })]
          ([⟨1, "Ureia", 100, 2, 20, "kg"⟩, ⟨2, "Calcario", 50, 1, 10, "kg"⟩], ⟨[], []⟩)).1 := by
  refine ⟨?_, by decide, ?_⟩
  · unfold codigosDistintos
    decide
  · unfold codigosDistintos
    decide

end AgroStock
